import Mathlib

set_option maxHeartbeats 1000000

namespace bioloid

/- Error codes from `Bioloid.h` (`struct Error : Bits<uint16_t>`).  Only the
codes produced by `Packet::processByte` are needed for this development. -/
namespace Error

/-- Constant Error::NONE. -/
def NONE : Nat := 0x00

/-- Constant Error::CHECKSUM. -/
def CHECKSUM : Nat := 0x10

/-- Constant Error::NOT_DONE. -/
def NOT_DONE : Nat := 0x100

/-- Constant Error::TOO_MUCH_DATA. -/
def TOO_MUCH_DATA : Nat := 0x102

end Error

/-- Bitwise NOT on a `uint8_t` value: `~x` for `x < 256` is `255 - x`. -/
def u8not (x : Nat) : Nat := 255 - x % 256

/-- Parser states, `Packet::State` from `Packet.h`. -/
inductive Packet.State
  | IDLE
  | FF_1ST_RCVD
  | FF_2ND_RCVD
  | ID_RCVD
  | LENGTH_RCVD
  | COMMAND_RCVD
  deriving DecidableEq

/-- Shallow embedding of `class Packet` (`Packet.h`).  Machine integers are
modelled as `Nat`, with `uint8_t` truncation written explicitly (`% 256`)
where the C++ code truncates.  The caller-owned parameter buffer
(`m_params`, of capacity `m_maxParams`) is modelled as a list whose length
is the capacity.  Field defaults are the member initializers of `Packet.h`
(`ID::DEFAULT = 0`, `m_length = 2`, `Command::PING = 1`). -/
structure Packet where
  state : Packet.State
  maxParams : Nat
  params : List Nat
  id : Nat := 0
  length : Nat := 2
  cmd : Nat := 1
  paramIdx : Nat := 0
  checksum : Nat := 0
  deriving DecidableEq

/-- A freshly constructed codec: `Packet(maxParams, params)` leaves the state
machine in `IDLE` with the member-initializer field values; `buf` is the
caller-supplied parameter buffer (its initial contents are arbitrary). -/
def Packet.mkFresh (maxParams : Nat) (buf : List Nat) : Packet :=
  { state := .IDLE, maxParams := maxParams, params := buf }

/-- Function Packet::numParams(): `m_length <= 2 ? 0 : m_length - 2`. -/
def Packet.numParams (p : Packet) : Nat :=
  if p.length ≤ 2 then 0 else p.length - 2

/-- Function Packet::processByte (Packet.cpp): runs one byte through the state
machine, returning the updated object and the `Error::Type` result. -/
def Packet.processByte (p : Packet) (byte : Nat) : Packet × Nat :=
  match p.state with
  | .IDLE =>
      if byte = 0xFF then ({ p with state := .FF_1ST_RCVD }, Error.NOT_DONE)
      else (p, Error.NOT_DONE)
  | .FF_1ST_RCVD =>
      if byte = 0xFF then ({ p with state := .FF_2ND_RCVD }, Error.NOT_DONE)
      else ({ p with state := .IDLE }, Error.NOT_DONE)
  | .FF_2ND_RCVD =>
      -- 0xFF is invalid as an ID, so stay in this state until a non-0xFF byte.
      if byte = 0xFF then (p, Error.NOT_DONE)
      else ({ p with id := byte, checksum := byte, state := .ID_RCVD }, Error.NOT_DONE)
  | .ID_RCVD =>
      ({ p with length := byte, checksum := (p.checksum + byte) % 256,
                state := .LENGTH_RCVD }, Error.NOT_DONE)
  | .LENGTH_RCVD =>
      ({ p with cmd := byte, checksum := (p.checksum + byte) % 256,
                paramIdx := 0, state := .COMMAND_RCVD }, Error.NOT_DONE)
  | .COMMAND_RCVD =>
      if p.numParams ≤ p.paramIdx then
        -- byte is the checksum; the code stores `~m_checksum` before comparing
        let comp := u8not p.checksum
        if comp = byte then
          if p.paramIdx ≤ p.maxParams then
            ({ p with checksum := comp, state := .IDLE }, Error.NONE)
          else
            ({ p with checksum := comp, state := .IDLE }, Error.TOO_MUCH_DATA)
        else
          ({ p with checksum := byte, state := .IDLE }, Error.CHECKSUM)
      else
        -- byte is a parameter: accumulate the checksum, store only when in
        -- bounds (m_paramIdx < m_maxParams), always advance m_paramIdx.
        ({ p with checksum := (p.checksum + byte) % 256,
                  params := if p.paramIdx < p.maxParams then
                              p.params.set p.paramIdx byte
                            else p.params,
                  paramIdx := p.paramIdx + 1 }, Error.NOT_DONE)

/-- Feed a list of bytes through `processByte` one at a time, collecting the
result of every call. -/
def Packet.processBytes (p : Packet) (bs : List Nat) : Packet × List Nat :=
  match bs with
  | [] => (p, [])
  | b :: rest =>
      let r := p.processByte b
      let rr := r.1.processBytes rest
      (rr.1, r.2 :: rr.2)

/-- Function Packet::update_checksum (Packet.cpp): 8-bit truncated sum of id,
length, command and the first `numParams()` stored parameter bytes,
bitwise complemented. -/
def Packet.update_checksum (p : Packet) : Packet :=
  { p with checksum :=
      u8not ((p.id + p.length + p.cmd + (p.params.take p.numParams).sum) % 256) }

/-- Function Packet::data (Packet.cpp): serializes the packet into an output buffer
of size `maxLen`, returning the bytes written (the C++ return value is
their count).  Each write is guarded by `len < maxLen`, which over the
sequential writes amounts to truncating the emitted sequence to `maxLen`.
When `numParams() > m_maxParams` (the `TOO_MUCH_DATA` case) the parameter
loop returns early at `idx == m_maxParams`, so no checksum byte is
appended. -/
def Packet.data (p : Packet) (maxLen : Nat) : List Nat :=
  if p.maxParams < p.numParams then
    ([0xFF, 0xFF, p.id, p.length, p.cmd] ++ p.params.take p.maxParams).take maxLen
  else
    ([0xFF, 0xFF, p.id, p.length, p.cmd] ++ p.params.take p.numParams
      ++ [p.checksum]).take maxLen

/-- A packet built programmatically: `Packet(ps.length, buffer)` followed by
`id(i)`, `command(c)` and `params(ps.length, ps)` (which copies `ps` into
the buffer and sets `m_length = 2 + min(numParams, m_maxParams)`). -/
def mkFrame (i c : Nat) (ps : List Nat) : Packet :=
  { state := .IDLE, maxParams := ps.length, params := ps,
    id := i, length := 2 + ps.length, cmd := c }

/-- The effect of the bounds-checked parameter stores performed by the
`COMMAND_RCVD` branch of `processByte` over a run of parameter bytes `qs`,
starting at parameter index `k` with buffer capacity `cap`. -/
def storeParams (buf : List Nat) (cap k : Nat) (qs : List Nat) : List Nat :=
  match qs with
  | [] => buf
  | q :: rest => storeParams (if k < cap then buf.set k q else buf) cap (k + 1) rest

/-- The terminal result of a stream of `processByte` results: the last result
that is not `NOT_DONE` (`NONE`, `CHECKSUM` or `TOO_MUCH_DATA`), if any. -/
def terminalResult (es : List Nat) : Option Nat :=
  (es.filter (fun e => e != Error.NOT_DONE)).getLast?

/-- Little-endian read of `w` bytes at `offset`, the value computed by the
general branch of `IControlTable::get` (`ControlTable.h`). -/
def leRead (bytes : List Nat) (offset : Nat) : Nat → Nat
  | 0 => 0
  | n + 1 => leRead bytes offset n + bytes.getD (offset + n) 0 * 256 ^ n

/-- Function IControlTable::get<T> (ControlTable.h): calls `populateEntry(offset)`
once, before the bytes are read, then reads `w = sizeof(T)` bytes in
little-endian order.  The second component is the list of offsets passed
to the `populateEntry` hook. -/
def tableGet (bytes : List Nat) (w offset : Nat) : Nat × List Nat :=
  (if w = 1 then bytes.getD offset 0
   else if w = 2 then bytes.getD (offset + 1) 0 * 256 + bytes.getD offset 0
   else leRead bytes offset w, [offset])

/-- Little-endian store of `w` bytes of `val` starting at `offset`, the
writes performed by the general branch of `IControlTable::set`. -/
def storeLE (bytes : List Nat) (offset : Nat) : Nat → Nat → List Nat
  | 0, _ => bytes
  | n + 1, val => storeLE (bytes.set offset (val % 256)) (offset + 1) n (val / 256)

/-- Function IControlTable::set<T> (ControlTable.h): writes `w = sizeof(T)` bytes
little-endian, then calls `entryModified(offset)` once.  In the
`sizeof(T) == 1` branch `offset` is not incremented, so the hook receives
the starting offset; in the 2-byte and general branches `offset` has been
post-incremented past the field, so the hook receives `offset + w`.  The
second component is the list of offsets passed to the `entryModified`
hook. -/
def tableSet (bytes : List Nat) (w offset val : Nat) : List Nat × List Nat :=
  if w = 1 then (bytes.set offset (val % 256), [offset])
  else if w = 2 then
    ((bytes.set offset (val % 256)).set (offset + 1) (val / 256 % 256), [offset + 2])
  else (storeLE bytes offset w val, [offset + w])

/-- Constant IControlTable::Offset::BAUD (ControlTable.h). -/
def OffsetBAUD : Nat := 0x04

/-- Function IControlTable::entryModified (ControlTable.cpp), the base-class hook:
when the modified offset equals `Offset::BAUD` it reads the stored baud
divisor byte (`get_u8(Offset::BAUD)`; `populateEntry` is a no-op in the
base class) and notifies the port with `2'000'000 / (val + 1)`.  The
result is the `setBaudRate` argument sent to the port, `none` when no
call is made. -/
def baseEntryModified (bytes : List Nat) (offset : Nat) : Option Nat :=
  if offset = OffsetBAUD then
    some (2000000 / (bytes.getD OffsetBAUD 0 + 1))
  else
    none

/-- Function IControlTable::set<T> followed by the base-class `entryModified` hook:
returns the updated bytes and the baud-rate notifications sent to the
port (one entry per hook invocation). -/
def setWithBaudHook (bytes : List Nat) (w offset val : Nat) : List Nat × List (Option Nat) :=
  ((tableSet bytes w offset val).1,
   (tableSet bytes w offset val).2.map (baseEntryModified (tableSet bytes w offset val).1))

/-- Function IControlTable::setToInitialValues (ControlTable.cpp): zeroes the whole
table, then stores `DEFAULT_DEVICE_ID = 0` at `Offset::ID = 3`,
`DEFAULT_BAUD = 1` at `Offset::BAUD = 4` and `DEFAULT_RDT = 250` at
`Offset::RDT = 5` (single-byte `set` calls). -/
def setToInitialValues (numCtl : Nat) : List Nat :=
  (((List.replicate numCtl 0).set 3 0).set 4 1).set 5 250

/-- Function IControlTable::load (ControlTable.cpp): memset the whole backing
buffer (all `m_numCtlBytes` bytes) to zero, then delegate to
`m_storage.load(0, m_numPersistentBytes, ...)`.  The storage collaborator
is external; per its interface (`IControlTableStorage::load`) a successful
load stores exactly `numBytes = numPersistent` bytes at the start of the
buffer, modelled by the caller-chosen list `loaded`.  On failure the table
is reset with `setToInitialValues`. -/
def ctlLoad (numCtl numPersistent : Nat) (ok : Bool) (loaded : List Nat) : List Nat :=
  if ok then loaded.take numPersistent ++ (List.replicate numCtl 0).drop numPersistent
  else setToInitialValues numCtl

/- ------------------------------------------------------------------ -/
/- Helper lemmas                                                      -/
/- ------------------------------------------------------------------ -/

theorem take_append_length_add {α : Type} (A B : List α) (n : Nat) :
    (A ++ B).take (A.length + n) = A ++ B.take n := by
  induction A with
  | nil => simp
  | cons a A ih => simp [ih, Nat.succ_add]

theorem processBytes_append (xs ys : List Nat) (p : Packet) :
    p.processBytes (xs ++ ys) =
      (((p.processBytes xs).1.processBytes ys).1,
       (p.processBytes xs).2 ++ ((p.processBytes xs).1.processBytes ys).2) := by
  induction xs generalizing p with
  | nil => simp [Packet.processBytes]
  | cons x xs ih => simp [Packet.processBytes, ih]

theorem processByte_idle_other (p : Packet) (b : Nat) (hst : p.state = .IDLE)
    (hb : b ≠ 0xFF) : p.processByte b = (p, Error.NOT_DONE) := by
  simp [Packet.processByte, hst, hb]

theorem processByte_ff2_ff (p : Packet) (hst : p.state = .FF_2ND_RCVD) :
    p.processByte 0xFF = (p, Error.NOT_DONE) := by
  simp [Packet.processByte, hst]

theorem processBytes_idle_noise (noise : List Nat) (p : Packet)
    (hst : p.state = .IDLE) (hn : ∀ b ∈ noise, b ≠ 0xFF) :
    p.processBytes noise = (p, List.replicate noise.length Error.NOT_DONE) := by
  induction noise with
  | nil => simp [Packet.processBytes]
  | cons b rest ih =>
      have hb : b ≠ 0xFF := hn b (by simp)
      simp [Packet.processBytes, processByte_idle_other p b hst hb,
        ih (fun x hx => hn x (by simp [hx])), List.replicate_succ]

theorem processBytes_ff2_absorb (k : Nat) (p : Packet) (hst : p.state = .FF_2ND_RCVD) :
    p.processBytes (List.replicate k 0xFF) = (p, List.replicate k Error.NOT_DONE) := by
  induction k with
  | zero => simp [Packet.processBytes]
  | succ n ih =>
      simp [List.replicate_succ, Packet.processBytes, processByte_ff2_ff p hst, ih]

theorem cons_cons_replicate {α : Type} (k : Nat) (a : α) (l : List α) :
    a :: a :: (List.replicate k a ++ l) = List.replicate k a ++ a :: a :: l := by
  induction k with
  | zero => rfl
  | succ n ih => simp only [List.replicate_succ, List.cons_append]; rw [← ih]

theorem processBytes_sync (k : Nat) (T : List Nat) (p : Packet) (hst : p.state = .IDLE) :
    p.processBytes (0xFF :: 0xFF :: (List.replicate k 0xFF ++ T)) =
      ((({ p with state := .FF_2ND_RCVD }).processBytes T).1,
       List.replicate (k + 2) Error.NOT_DONE ++
         (({ p with state := .FF_2ND_RCVD }).processBytes T).2) := by
  have h1 : p.processByte 0xFF = ({ p with state := .FF_1ST_RCVD }, Error.NOT_DONE) := by
    simp [Packet.processByte, hst]
  have h2 : ({ p with state := Packet.State.FF_1ST_RCVD } : Packet).processByte 0xFF
      = ({ p with state := .FF_2ND_RCVD }, Error.NOT_DONE) := by
    simp [Packet.processByte]
  have h3 := processBytes_ff2_absorb k { p with state := .FF_2ND_RCVD } rfl
  simp [Packet.processBytes, h1, h2, processBytes_append, h3, cons_cons_replicate]
  exact (cons_cons_replicate k _ _).symm

theorem drop_append_length_add {α : Type} (A B : List α) (n : Nat) :
    (A ++ B).drop (A.length + n) = B.drop n := by
  induction A with
  | nil => simp
  | cons a A ih => simp [ih, Nat.succ_add]

theorem storeParams_length (qs : List Nat) (buf : List Nat) (cap k : Nat) :
    (storeParams buf cap k qs).length = buf.length := by
  induction qs generalizing buf k with
  | nil => rfl
  | cons q rest ih =>
      rw [storeParams, ih]
      split <;> simp

theorem storeParams_eq (qs : List Nat) (buf : List Nat) (cap k : Nat)
    (hcap : k + qs.length ≤ cap) (hlen : k + qs.length ≤ buf.length) :
    storeParams buf cap k qs = buf.take k ++ qs ++ buf.drop (k + qs.length) := by
  induction qs generalizing buf k with
  | nil => simp [storeParams]
  | cons q rest ih =>
      have hk : k < cap := by simp at hcap; omega
      have hkb : k < buf.length := by simp at hlen; omega
      have step : storeParams buf cap k (q :: rest)
          = storeParams (buf.set k q) cap (k + 1) rest := by
        simp [storeParams, hk]
      rw [step, ih (buf.set k q) (k + 1) (by simp at hcap ⊢; omega)
        (by simp at hlen ⊢; omega)]
      rw [List.set_eq_take_cons_drop q hkb]
      have htk : (buf.take k).length = k := List.length_take_of_le (Nat.le_of_lt hkb)
      have h1 : (buf.take k ++ q :: buf.drop (k + 1)).take (k + 1)
          = buf.take k ++ [q] := by
        rw [show k + 1 = (buf.take k).length + 1 by rw [htk]]
        rw [take_append_length_add]
        simp
      have h2 : (buf.take k ++ q :: buf.drop (k + 1)).drop (k + 1 + rest.length)
          = buf.drop (k + (rest.length + 1)) := by
        rw [show k + 1 + rest.length = (buf.take k).length + (rest.length + 1) by
          rw [htk]; omega]
        rw [drop_append_length_add]
        rw [List.drop_succ_cons, List.drop_drop]
        congr 1
        omega
      rw [h1, h2]
      simp

theorem process_params (qs : List Nat) (p : Packet)
    (hst : p.state = .COMMAND_RCVD)
    (hcount : p.paramIdx + qs.length ≤ p.numParams)
    (hck : p.checksum < 256) :
    p.processBytes qs =
      ({ p with params := storeParams p.params p.maxParams p.paramIdx qs,
                paramIdx := p.paramIdx + qs.length,
                checksum := (p.checksum + qs.sum) % 256 },
       List.replicate qs.length Error.NOT_DONE) := by
  induction qs generalizing p with
  | nil =>
      obtain ⟨st, mp, par, idv, len, cmd, pi, ck⟩ := p
      simp at hst hck
      subst hst
      simp [Packet.processBytes, storeParams, Nat.mod_eq_of_lt hck]
  | cons q rest ih =>
      obtain ⟨st, mp, par, idv, len, cmd, pi, ck⟩ := p
      simp at hst hcount hck
      subst hst
      have hlt : ¬ (Packet.numParams ⟨.COMMAND_RCVD, mp, par, idv, len, cmd, pi, ck⟩ ≤ pi) := by
        simp [Packet.numParams] at hcount ⊢
        omega
      have hstep :
          (Packet.processByte ⟨.COMMAND_RCVD, mp, par, idv, len, cmd, pi, ck⟩ q)
            = (⟨.COMMAND_RCVD, mp, if pi < mp then par.set pi q else par, idv, len, cmd,
                pi + 1, (ck + q) % 256⟩, Error.NOT_DONE) := by
        simp [Packet.processByte, hlt]
      have hrec := ih ⟨.COMMAND_RCVD, mp, if pi < mp then par.set pi q else par, idv, len,
          cmd, pi + 1, (ck + q) % 256⟩ rfl
        (by simp [Packet.numParams] at hcount ⊢; omega)
        (Nat.mod_lt _ (by norm_num))
      simp [Packet.processBytes, hstep, hrec, storeParams, List.replicate_succ]
      constructor
      · omega
      · omega

theorem parse_frame (C : Nat) (buf : List Nat) (i L c ck : Nat) (qs : List Nat)
    (hi : i ≠ 0xFF)
    (hq : qs.length = (if L ≤ 2 then 0 else L - 2)) :
    (Packet.mkFresh C buf).processBytes (0xFF :: 0xFF :: i :: L :: c :: (qs ++ [ck])) =
      (⟨.IDLE, C, storeParams buf C 0 qs, i, L, c, qs.length,
         if u8not ((i + L + c + qs.sum) % 256) = ck
         then u8not ((i + L + c + qs.sum) % 256) else ck⟩,
       List.replicate (5 + qs.length) Error.NOT_DONE ++
         [if u8not ((i + L + c + qs.sum) % 256) = ck then
            (if qs.length ≤ C then Error.NONE else Error.TOO_MUCH_DATA)
          else Error.CHECKSUM]) := by
  have h0 : (Packet.mkFresh C buf).processBytes (0xFF :: 0xFF :: i :: L :: c :: (qs ++ [ck]))
      = ((Packet.processBytes ⟨.COMMAND_RCVD, C, buf, i, L, c, 0, (i + L + c) % 256⟩
            (qs ++ [ck])).1,
         Error.NOT_DONE :: Error.NOT_DONE :: Error.NOT_DONE :: Error.NOT_DONE ::
           Error.NOT_DONE ::
           (Packet.processBytes ⟨.COMMAND_RCVD, C, buf, i, L, c, 0, (i + L + c) % 256⟩
              (qs ++ [ck])).2) := by
    simp [Packet.processBytes, Packet.processByte, Packet.mkFresh, hi]
  have hbody := process_params qs ⟨.COMMAND_RCVD, C, buf, i, L, c, 0, (i + L + c) % 256⟩
    rfl (by simp [Packet.numParams]; omega) (Nat.mod_lt _ (by norm_num))
  simp only [Nat.zero_add] at hbody
  have happ := processBytes_append qs [ck]
    ⟨.COMMAND_RCVD, C, buf, i, L, c, 0, (i + L + c) % 256⟩
  rw [hbody] at happ
  have hsum : ((i + L + c) % 256 + qs.sum) % 256 = (i + L + c + qs.sum) % 256 := by
    omega
  have hone : Packet.processBytes
      ⟨.COMMAND_RCVD, C, storeParams buf C 0 qs, i, L, c, qs.length,
        ((i + L + c) % 256 + qs.sum) % 256⟩ [ck]
      = (⟨.IDLE, C, storeParams buf C 0 qs, i, L, c, qs.length,
           if u8not ((i + L + c + qs.sum) % 256) = ck
           then u8not ((i + L + c + qs.sum) % 256) else ck⟩,
         [if u8not ((i + L + c + qs.sum) % 256) = ck then
            (if qs.length ≤ C then Error.NONE else Error.TOO_MUCH_DATA)
          else Error.CHECKSUM]) := by
    simp only [Packet.processBytes, Packet.processByte, hsum]
    rw [if_pos (show Packet.numParams ⟨.COMMAND_RCVD, C, storeParams buf C 0 qs, i, L,
      c, qs.length, (i + L + c + qs.sum) % 256⟩ ≤ qs.length by
        simp [Packet.numParams]; omega)]
    by_cases hmatch : u8not ((i + L + c + qs.sum) % 256) = ck
    · rw [if_pos hmatch]
      by_cases hcap : qs.length ≤ C
      · simp [hmatch, hcap]
      · simp [hmatch, hcap]
    · simp [hmatch]
  rw [h0, happ, hone]
  simp [List.replicate_add, List.replicate_succ]

theorem mkFrame_numParams (i c : Nat) (ps : List Nat) :
    (mkFrame i c ps).numParams = ps.length := by
  simp [mkFrame, Packet.numParams]
  intro h
  simp [h]

theorem mkFrame_wire (i c : Nat) (ps : List Nat) (m : Nat) (hm : ps.length + 6 ≤ m) :
    ((mkFrame i c ps).update_checksum).data m =
      0xFF :: 0xFF :: i :: (2 + ps.length) :: c ::
        (ps ++ [u8not ((i + (2 + ps.length) + c + ps.sum) % 256)]) := by
  have hiff : (if ps = [] then 0 else ps.length) = ps.length := by
    split <;> simp_all
  simp [Packet.data, Packet.update_checksum, mkFrame, Packet.numParams, hiff]
  omega

theorem processByte_id (p : Packet) (b : Nat) (h : p.id ≠ 0xFF) :
    ((p.processByte b).1).id ≠ 0xFF := by
  obtain ⟨st, mp, par, idv, len, cmd, pi, ck⟩ := p
  simp at h
  cases st <;> simp [Packet.processByte] <;> (try split_ifs) <;> simp_all

theorem processBytes_id (bs : List Nat) (p : Packet) (h : p.id ≠ 0xFF) :
    ((p.processBytes bs).1).id ≠ 0xFF := by
  induction bs generalizing p with
  | nil => simpa [Packet.processBytes] using h
  | cons b rest ih =>
      simp only [Packet.processBytes]
      exact ih _ (processByte_id p b h)

theorem terminalResult_replicate_notdone (m : Nat) (es : List Nat) :
    terminalResult (List.replicate m Error.NOT_DONE ++ es) = terminalResult es := by
  have hrep : (List.replicate m Error.NOT_DONE).filter
      (fun e => e != Error.NOT_DONE) = [] := by
    induction m with
    | zero => rfl
    | succ n ih => simp [List.replicate_succ, List.filter_cons, ih]
  simp [terminalResult, List.filter_append, hrep]

/- ------------------------------------------------------------------ -/
/- Claims                                                             -/
/- ------------------------------------------------------------------ -/

/-- Claim C1, counterexample: the round trip as stated fails for a frame
whose id is 0xFF.  The frame (id 0xFF, command 0, no parameters)
serializes to FF FF FF 02 00 FE, but the parser absorbs the third 0xFF as
an extra sync byte, reads 0x02 as the id and 0x00 as the length, so the
final byte leaves the parse incomplete (NOT_DONE) instead of NONE. -/
theorem C1_counterexample :
    (((mkFrame 0xFF 0 []).update_checksum).data 6 = [0xFF, 0xFF, 0xFF, 2, 0, 0xFE])
    ∧ ((((Packet.mkFresh 0 []).processBytes
          (((mkFrame 0xFF 0 []).update_checksum).data 6)).2).getLast?
        = some Error.NOT_DONE)
    ∧ ¬ ((((Packet.mkFresh 0 []).processBytes
          (((mkFrame 0xFF 0 []).update_checksum).data 6)).2).getLast?
        = some Error.NONE) := by
  decide

/-- Claim C1 (amended: the constructed frame's id must not be 0xFF, since a
0xFF id byte is absorbed by the parser's sync handling): a frame built
with id, command and N parameter bytes, after update_checksum and
serialization via data into a buffer of sufficient size, re-parses through
a fresh codec of sufficient capacity to Error.NONE on the final byte,
reproducing id, command and the parameter bytes exactly. -/
theorem C1_round_trip (i c : Nat) (ps : List Nat) (C : Nat) (buf : List Nat) (m : Nat)
    (hi : i < 256) (hiff : i ≠ 0xFF) (hc : c < 256) (hps : ∀ b ∈ ps, b < 256)
    (hN : ps.length ≤ 253) (hNC : ps.length ≤ C) (hC : C ≤ 253)
    (hbuf : buf.length = C) (hm : ps.length + 6 ≤ m) :
    ((((Packet.mkFresh C buf).processBytes
        (((mkFrame i c ps).update_checksum).data m)).2).getLast? = some Error.NONE)
    ∧ (((Packet.mkFresh C buf).processBytes
        (((mkFrame i c ps).update_checksum).data m)).1.id = i)
    ∧ (((Packet.mkFresh C buf).processBytes
        (((mkFrame i c ps).update_checksum).data m)).1.cmd = c)
    ∧ ((((Packet.mkFresh C buf).processBytes
        (((mkFrame i c ps).update_checksum).data m)).1.params).take ps.length = ps) := by
  rw [mkFrame_wire i c ps m hm]
  have hq : ps.length = (if (2 + ps.length) ≤ 2 then 0 else (2 + ps.length) - 2) := by
    split <;> omega
  rw [parse_frame C buf i (2 + ps.length) c
    (u8not ((i + (2 + ps.length) + c + ps.sum) % 256)) ps hiff hq]
  have hstore : storeParams buf C 0 ps = ps ++ buf.drop ps.length := by
    rw [storeParams_eq ps buf C 0 (by omega) (by omega)]
    simp
  simp [hstore, hNC, List.getLast?_concat, List.take_left']

/-- Claim C2: every parameter-buffer write performed by processByte is
bounds-checked against the capacity (the stored index is always below
m_maxParams), and a stream declaring more parameters than the capacity,
with a valid checksum, terminates with Error.TOO_MUCH_DATA rather than
Error.NONE. -/
theorem C2_bounded_writes :
    (∀ (p : Packet) (b : Nat),
        (p.processByte b).1.params = p.params ∨
        ∃ k, k < p.maxParams ∧ (p.processByte b).1.params = p.params.set k b)
    ∧ (∀ (C : Nat) (buf : List Nat) (i L c : Nat) (qs : List Nat),
        buf.length = C → i ≠ 0xFF →
        qs.length = (if L ≤ 2 then 0 else L - 2) → C < qs.length →
        (((Packet.mkFresh C buf).processBytes
            (0xFF :: 0xFF :: i :: L :: c ::
              (qs ++ [u8not ((i + L + c + qs.sum) % 256)]))).2).getLast?
          = some Error.TOO_MUCH_DATA) := by
  constructor
  · intro p b
    obtain ⟨st, mp, par, idv, len, cmd, pi, ck⟩ := p
    cases st <;> simp only [Packet.processByte] <;> (try split_ifs) <;>
      first
        | exact Or.inl (by trivial)
        | (rename_i hlt; exact Or.inr ⟨pi, hlt, rfl⟩)
  · intro C buf i L c qs hbuf hi hq hcap
    rw [parse_frame C buf i L c (u8not ((i + L + c + qs.sum) % 256)) qs hi hq]
    simp [List.getLast?_concat]
    omega

/-- Claim C2, witness. -/
theorem C2_bounded_writes_witness :
    ((1 : Nat) < ([0x2B, 1] : List Nat).length)
    ∧ ((((Packet.mkFresh 1 [0]).processBytes
          (0xFF :: 0xFF :: 1 :: 4 :: 2 ::
            ([0x2B, 1] ++ [u8not ((1 + 4 + 2 + ([0x2B, 1] : List Nat).sum) % 256)]))).2).getLast?
        = some Error.TOO_MUCH_DATA) :=
  ⟨by decide,
   C2_bounded_writes.2 1 [0] 1 4 2 [0x2B, 1] (by decide) (by decide) (by decide) (by decide)⟩

/-- Claim C3: at the finalize step, when the computed checksum differs from
the received byte, processByte returns Error.CHECKSUM, the state machine
returns to IDLE, and the already-parsed frame fields (id, length, command,
stored parameters) are unchanged. -/
theorem C3_checksum_mismatch (p : Packet) (b : Nat)
    (hst : p.state = .COMMAND_RCVD) (hdone : p.numParams ≤ p.paramIdx)
    (hne : u8not p.checksum ≠ b) :
    (p.processByte b).2 = Error.CHECKSUM
    ∧ (p.processByte b).1.state = .IDLE
    ∧ (p.processByte b).1.id = p.id
    ∧ (p.processByte b).1.length = p.length
    ∧ (p.processByte b).1.cmd = p.cmd
    ∧ (p.processByte b).1.params = p.params := by
  obtain ⟨st, mp, par, idv, len, cmd, pi, ck⟩ := p
  simp at hst
  subst hst
  simp only [Packet.processByte]
  rw [if_pos hdone, if_neg hne]
  simp

/-- Claim C3, witness. -/
theorem C3_checksum_mismatch_witness :
    ((⟨.COMMAND_RCVD, 2, [9, 9], 5, 2, 0, 0, 3⟩ : Packet).state = .COMMAND_RCVD
      ∧ (⟨.COMMAND_RCVD, 2, [9, 9], 5, 2, 0, 0, 3⟩ : Packet).numParams ≤ 0
      ∧ u8not 3 ≠ 7)
    ∧ (((⟨.COMMAND_RCVD, 2, [9, 9], 5, 2, 0, 0, 3⟩ : Packet).processByte 7).2
          = Error.CHECKSUM
        ∧ ((⟨.COMMAND_RCVD, 2, [9, 9], 5, 2, 0, 0, 3⟩ : Packet).processByte 7).1.state
          = .IDLE
        ∧ ((⟨.COMMAND_RCVD, 2, [9, 9], 5, 2, 0, 0, 3⟩ : Packet).processByte 7).1.id
          = (⟨.COMMAND_RCVD, 2, [9, 9], 5, 2, 0, 0, 3⟩ : Packet).id
        ∧ ((⟨.COMMAND_RCVD, 2, [9, 9], 5, 2, 0, 0, 3⟩ : Packet).processByte 7).1.length
          = (⟨.COMMAND_RCVD, 2, [9, 9], 5, 2, 0, 0, 3⟩ : Packet).length
        ∧ ((⟨.COMMAND_RCVD, 2, [9, 9], 5, 2, 0, 0, 3⟩ : Packet).processByte 7).1.cmd
          = (⟨.COMMAND_RCVD, 2, [9, 9], 5, 2, 0, 0, 3⟩ : Packet).cmd
        ∧ ((⟨.COMMAND_RCVD, 2, [9, 9], 5, 2, 0, 0, 3⟩ : Packet).processByte 7).1.params
          = (⟨.COMMAND_RCVD, 2, [9, 9], 5, 2, 0, 0, 3⟩ : Packet).params) :=
  ⟨by decide,
   C3_checksum_mismatch ⟨.COMMAND_RCVD, 2, [9, 9], 5, 2, 0, 0, 3⟩ 7 rfl (by decide) (by decide)⟩

/-- Claim C1, witness. -/
theorem C1_round_trip_witness :
    ((0xFE : Nat) ≠ 0xFF ∧ ([3, 1] : List Nat).length ≤ 2)
    ∧ (((((Packet.mkFresh 2 [0, 0]).processBytes
          (((mkFrame 0xFE 3 [3, 1]).update_checksum).data 8)).2).getLast?
            = some Error.NONE)
        ∧ (((Packet.mkFresh 2 [0, 0]).processBytes
            (((mkFrame 0xFE 3 [3, 1]).update_checksum).data 8)).1.id = 0xFE)
        ∧ (((Packet.mkFresh 2 [0, 0]).processBytes
            (((mkFrame 0xFE 3 [3, 1]).update_checksum).data 8)).1.cmd = 3)
        ∧ ((((Packet.mkFresh 2 [0, 0]).processBytes
            (((mkFrame 0xFE 3 [3, 1]).update_checksum).data 8)).1.params).take 2
              = [3, 1])) :=
  ⟨by decide,
   C1_round_trip 0xFE 3 [3, 1] 2 [0, 0] 8 (by decide) (by decide) (by decide) (by decide)
     (by decide) (by decide) (by decide) (by decide) (by decide)⟩

/-- Claim C4: the stream FF FF FE 04 03 03 01 F6 into a fresh codec of
capacity at least 2 yields NOT_DONE on every byte but the last, NONE on
the last, and leaves id=0xFE, length=4, command=3, parameters [3, 1] and
checksum 0xF6. -/
theorem C4_scenario1 (C : Nat) (buf : List Nat) (hC : 2 ≤ C) (hbuf : buf.length = C) :
    ((Packet.mkFresh C buf).processBytes [0xFF, 0xFF, 0xFE, 4, 3, 3, 1, 0xF6]).2
      = List.replicate 7 Error.NOT_DONE ++ [Error.NONE]
    ∧ ((Packet.mkFresh C buf).processBytes [0xFF, 0xFF, 0xFE, 4, 3, 3, 1, 0xF6]).1.id = 0xFE
    ∧ ((Packet.mkFresh C buf).processBytes [0xFF, 0xFF, 0xFE, 4, 3, 3, 1, 0xF6]).1.length = 4
    ∧ ((Packet.mkFresh C buf).processBytes [0xFF, 0xFF, 0xFE, 4, 3, 3, 1, 0xF6]).1.cmd = 3
    ∧ (((Packet.mkFresh C buf).processBytes
          [0xFF, 0xFF, 0xFE, 4, 3, 3, 1, 0xF6]).1.params).take 2 = [3, 1]
    ∧ ((Packet.mkFresh C buf).processBytes
          [0xFF, 0xFF, 0xFE, 4, 3, 3, 1, 0xF6]).1.checksum = 0xF6 := by
  have hp := parse_frame C buf 0xFE 4 3 0xF6 [3, 1] (by decide) (by decide)
  have hck : u8not ((0xFE + 4 + 3 + ([3, 1] : List Nat).sum) % 256) = 0xF6 := by decide
  rw [hck] at hp
  simp only [if_pos rfl] at hp
  simp [hC] at hp
  have hstore : (storeParams buf C 0 [3, 1]).take 2 = [3, 1] := by
    rw [storeParams_eq [3, 1] buf C 0 (by simp; omega) (by simp; omega)]
    simp only [List.take_zero, List.nil_append]
    exact List.take_left' rfl
  rw [hp]
  simp [hstore]

/-- Claim C4, witness. -/
theorem C4_scenario1_witness :
    ((2 : Nat) ≤ 2 ∧ ([0, 0] : List Nat).length = 2)
    ∧ (((Packet.mkFresh 2 [0, 0]).processBytes [0xFF, 0xFF, 0xFE, 4, 3, 3, 1, 0xF6]).2
        = List.replicate 7 Error.NOT_DONE ++ [Error.NONE]
      ∧ ((Packet.mkFresh 2 [0, 0]).processBytes
            [0xFF, 0xFF, 0xFE, 4, 3, 3, 1, 0xF6]).1.id = 0xFE
      ∧ ((Packet.mkFresh 2 [0, 0]).processBytes
            [0xFF, 0xFF, 0xFE, 4, 3, 3, 1, 0xF6]).1.length = 4
      ∧ ((Packet.mkFresh 2 [0, 0]).processBytes
            [0xFF, 0xFF, 0xFE, 4, 3, 3, 1, 0xF6]).1.cmd = 3
      ∧ (((Packet.mkFresh 2 [0, 0]).processBytes
            [0xFF, 0xFF, 0xFE, 4, 3, 3, 1, 0xF6]).1.params).take 2 = [3, 1]
      ∧ ((Packet.mkFresh 2 [0, 0]).processBytes
            [0xFF, 0xFF, 0xFE, 4, 3, 3, 1, 0xF6]).1.checksum = 0xF6) :=
  ⟨by decide, C4_scenario1 2 [0, 0] (by decide) (by decide)⟩

/-- Claim C5: a codec of capacity 1 parsing FF FF 01 04 02 2B 01 CC (which
declares 2 parameters) ends with Error.TOO_MUCH_DATA, stores only
param[0] = 0x2B, and a subsequent data() into a buffer of at least 8
bytes emits exactly the 6 bytes FF FF 01 04 02 2B with no checksum. -/
theorem C5_scenario4 (b m : Nat) (hm : 8 ≤ m) :
    ((((Packet.mkFresh 1 [b]).processBytes
        [0xFF, 0xFF, 1, 4, 2, 0x2B, 1, 0xCC]).2).getLast? = some Error.TOO_MUCH_DATA)
    ∧ (((Packet.mkFresh 1 [b]).processBytes
        [0xFF, 0xFF, 1, 4, 2, 0x2B, 1, 0xCC]).1.params = [0x2B])
    ∧ ((((Packet.mkFresh 1 [b]).processBytes
        [0xFF, 0xFF, 1, 4, 2, 0x2B, 1, 0xCC]).1).data m = [0xFF, 0xFF, 1, 4, 2, 0x2B])
    ∧ (((((Packet.mkFresh 1 [b]).processBytes
        [0xFF, 0xFF, 1, 4, 2, 0x2B, 1, 0xCC]).1).data m).length = 6) := by
  have hp := parse_frame 1 [b] 1 4 2 0xCC [0x2B, 1] (by decide) (by decide)
  have hck : u8not ((1 + 4 + 2 + ([0x2B, 1] : List Nat).sum) % 256) = 0xCC := by decide
  rw [hck] at hp
  simp only [if_pos rfl] at hp
  have hstore : storeParams [b] 1 0 [0x2B, 1] = [0x2B] := by
    simp [storeParams]
  rw [hstore] at hp
  simp at hp
  rw [hp]
  simp [Packet.data, Packet.numParams]
  omega

/-- Claim C5, witness. -/
theorem C5_scenario4_witness :
    ((8 : Nat) ≤ 8)
    ∧ (((((Packet.mkFresh 1 [0]).processBytes
          [0xFF, 0xFF, 1, 4, 2, 0x2B, 1, 0xCC]).2).getLast? = some Error.TOO_MUCH_DATA)
      ∧ (((Packet.mkFresh 1 [0]).processBytes
          [0xFF, 0xFF, 1, 4, 2, 0x2B, 1, 0xCC]).1.params = [0x2B])
      ∧ ((((Packet.mkFresh 1 [0]).processBytes
          [0xFF, 0xFF, 1, 4, 2, 0x2B, 1, 0xCC]).1).data 8 = [0xFF, 0xFF, 1, 4, 2, 0x2B])
      ∧ (((((Packet.mkFresh 1 [0]).processBytes
          [0xFF, 0xFF, 1, 4, 2, 0x2B, 1, 0xCC]).1).data 8).length = 6)) :=
  ⟨by decide, C5_scenario4 0 8 (by decide)⟩

/-- Claim C6, counterexample: inserting a single leading noise byte (0xFF)
before the stream FF 01 04 00 FF FF 01 02 00 FC changes the terminal
result from NONE to CHECKSUM, so the claim fails for arbitrary byte
streams. -/
theorem C6_counterexample :
    terminalResult (((Packet.mkFresh 2 [0, 0]).processBytes
        [0xFF, 1, 4, 0, 0xFF, 0xFF, 1, 2, 0, 0xFC]).2) = some Error.NONE
    ∧ terminalResult (((Packet.mkFresh 2 [0, 0]).processBytes
        (0xFF :: [0xFF, 1, 4, 0, 0xFF, 0xFF, 1, 2, 0, 0xFC])).2) = some Error.CHECKSUM
    ∧ terminalResult (((Packet.mkFresh 2 [0, 0]).processBytes
        (0xFF :: [0xFF, 1, 4, 0, 0xFF, 0xFF, 1, 2, 0, 0xFC])).2)
      ≠ terminalResult (((Packet.mkFresh 2 [0, 0]).processBytes
        [0xFF, 1, 4, 0, 0xFF, 0xFF, 1, 2, 0, 0xFC]).2) := by
  decide

/-- Claim C6 (amended: inserted leading noise bytes must not be 0xFF, and
extra 0xFF bytes may be inserted immediately before the two sync bytes of
a stream that begins with them): for every byte stream, inserting
non-0xFF leading noise bytes yields the same final packet and the same
per-byte results preceded by one NOT_DONE per inserted byte, hence the
same terminal result; and for streams beginning with the two sync bytes,
inserting in addition any number of extra 0xFF bytes immediately before
the sync pair does the same. -/
theorem C6_noise_insertion :
    (∀ (C : Nat) (buf noise S : List Nat), (∀ b ∈ noise, b ≠ 0xFF) →
        ((Packet.mkFresh C buf).processBytes (noise ++ S)
          = (((Packet.mkFresh C buf).processBytes S).1,
             List.replicate noise.length Error.NOT_DONE ++
               ((Packet.mkFresh C buf).processBytes S).2))
        ∧ terminalResult ((Packet.mkFresh C buf).processBytes (noise ++ S)).2
          = terminalResult ((Packet.mkFresh C buf).processBytes S).2)
    ∧ (∀ (C : Nat) (buf noise : List Nat), (∀ b ∈ noise, b ≠ 0xFF) →
        ∀ (k : Nat) (T : List Nat),
        ((Packet.mkFresh C buf).processBytes
            (noise ++ (List.replicate k 0xFF ++ (0xFF :: 0xFF :: T)))
          = (((Packet.mkFresh C buf).processBytes (0xFF :: 0xFF :: T)).1,
             List.replicate (noise.length + k) Error.NOT_DONE ++
               ((Packet.mkFresh C buf).processBytes (0xFF :: 0xFF :: T)).2))
        ∧ terminalResult ((Packet.mkFresh C buf).processBytes
            (noise ++ (List.replicate k 0xFF ++ (0xFF :: 0xFF :: T)))).2
          = terminalResult ((Packet.mkFresh C buf).processBytes (0xFF :: 0xFF :: T)).2) := by
  constructor
  · intro C buf noise S hn
    have hmain : (Packet.mkFresh C buf).processBytes (noise ++ S)
        = (((Packet.mkFresh C buf).processBytes S).1,
           List.replicate noise.length Error.NOT_DONE ++
             ((Packet.mkFresh C buf).processBytes S).2) := by
      have h1 := processBytes_append noise S (Packet.mkFresh C buf)
      rw [processBytes_idle_noise noise (Packet.mkFresh C buf) rfl hn] at h1
      exact h1
    refine ⟨hmain, ?_⟩
    rw [hmain]
    exact terminalResult_replicate_notdone _ _
  · intro C buf noise hn k T
    have hmain : (Packet.mkFresh C buf).processBytes
        (noise ++ (List.replicate k 0xFF ++ (0xFF :: 0xFF :: T)))
        = (((Packet.mkFresh C buf).processBytes (0xFF :: 0xFF :: T)).1,
           List.replicate (noise.length + k) Error.NOT_DONE ++
             ((Packet.mkFresh C buf).processBytes (0xFF :: 0xFF :: T)).2) := by
      have h3 := processBytes_sync 0 T (Packet.mkFresh C buf) rfl
      rw [show (0xFF :: 0xFF :: (List.replicate 0 0xFF ++ T) : List Nat)
          = 0xFF :: 0xFF :: T from rfl] at h3
      rw [show List.replicate k 0xFF ++ (0xFF :: 0xFF :: T)
          = 0xFF :: 0xFF :: (List.replicate k 0xFF ++ T)
        from (cons_cons_replicate k 0xFF T).symm]
      rw [processBytes_append]
      rw [processBytes_idle_noise noise (Packet.mkFresh C buf) rfl hn]
      dsimp only
      rw [processBytes_sync k T (Packet.mkFresh C buf) rfl, h3]
      dsimp only
      rw [← List.append_assoc, ← List.append_assoc, ← List.replicate_add,
        ← List.replicate_add]
      congr 3
    refine ⟨hmain, ?_⟩
    rw [hmain]
    exact terminalResult_replicate_notdone _ _

/-- Claim C6, witness for the amended statement: a non-0xFF noise byte before
an arbitrary stream, and noise plus an extra 0xFF before a sync-started
stream. -/
theorem C6_noise_insertion_witness :
    ((∀ b ∈ ([7] : List Nat), b ≠ 0xFF) ∧ (∀ b ∈ ([0] : List Nat), b ≠ 0xFF))
    ∧ (((Packet.mkFresh 2 [0, 0]).processBytes [7, 0xFF, 1, 2, 0, 0xFC]
        = (((Packet.mkFresh 2 [0, 0]).processBytes [0xFF, 1, 2, 0, 0xFC]).1,
           List.replicate 1 Error.NOT_DONE ++
             ((Packet.mkFresh 2 [0, 0]).processBytes [0xFF, 1, 2, 0, 0xFC]).2))
      ∧ terminalResult ((Packet.mkFresh 2 [0, 0]).processBytes
            [7, 0xFF, 1, 2, 0, 0xFC]).2
        = terminalResult ((Packet.mkFresh 2 [0, 0]).processBytes
            [0xFF, 1, 2, 0, 0xFC]).2)
    ∧ (((Packet.mkFresh 2 [0, 0]).processBytes [0, 0xFF, 0xFF, 0xFF, 1, 2, 0, 0xFC]
        = (((Packet.mkFresh 2 [0, 0]).processBytes [0xFF, 0xFF, 1, 2, 0, 0xFC]).1,
           List.replicate 2 Error.NOT_DONE ++
             ((Packet.mkFresh 2 [0, 0]).processBytes [0xFF, 0xFF, 1, 2, 0, 0xFC]).2))
      ∧ terminalResult ((Packet.mkFresh 2 [0, 0]).processBytes
            [0, 0xFF, 0xFF, 0xFF, 1, 2, 0, 0xFC]).2
        = terminalResult ((Packet.mkFresh 2 [0, 0]).processBytes
            [0xFF, 0xFF, 1, 2, 0, 0xFC]).2) :=
  ⟨⟨by decide, by decide⟩,
   C6_noise_insertion.1 2 [0, 0] [7] [0xFF, 1, 2, 0, 0xFC] (by decide),
   C6_noise_insertion.2 2 [0, 0] [0] (by decide) 1 [1, 2, 0, 0xFC]⟩

/-- Claim C7: from the initial codec state, no sequence of processByte calls
ever leaves 0xFF stored as the frame id; in the state following the two
sync bytes every extra 0xFF byte is absorbed without capturing an id, and
the id is captured exactly by the first non-0xFF byte. -/
theorem C7_id_never_ff :
    (∀ (C : Nat) (buf bs : List Nat),
        (((Packet.mkFresh C buf).processBytes bs).1).id ≠ 0xFF)
    ∧ (∀ p : Packet, p.state = .FF_2ND_RCVD → p.processByte 0xFF = (p, Error.NOT_DONE))
    ∧ (∀ (p : Packet) (b : Nat), p.state = .FF_2ND_RCVD → b ≠ 0xFF →
        (p.processByte b).1.id = b ∧ (p.processByte b).1.state = .ID_RCVD) := by
  refine ⟨?_, ?_, ?_⟩
  · intro C buf bs
    exact processBytes_id bs (Packet.mkFresh C buf) (by simp [Packet.mkFresh])
  · intro p hst
    exact processByte_ff2_ff p hst
  · intro p b hst hb
    obtain ⟨st, mp, par, idv, len, cmd, pi, ck⟩ := p
    simp at hst
    subst hst
    simp [Packet.processByte, hb]

/-- Claim C7, witness. -/
theorem C7_id_never_ff_witness :
    ((⟨.FF_2ND_RCVD, 0, [], 0, 2, 1, 0, 0⟩ : Packet).state = .FF_2ND_RCVD
      ∧ (7 : Nat) ≠ 0xFF)
    ∧ ((⟨.FF_2ND_RCVD, 0, [], 0, 2, 1, 0, 0⟩ : Packet).processByte 0xFF
        = (⟨.FF_2ND_RCVD, 0, [], 0, 2, 1, 0, 0⟩, Error.NOT_DONE))
    ∧ ((⟨.FF_2ND_RCVD, 0, [], 0, 2, 1, 0, 0⟩ : Packet).processByte 7).1.id = 7
    ∧ (((Packet.mkFresh 2 [0, 0]).processBytes [0xFF, 0xFF, 0xFF, 0xFF, 7]).1).id ≠ 0xFF :=
  ⟨⟨rfl, by decide⟩,
   C7_id_never_ff.2.1 ⟨.FF_2ND_RCVD, 0, [], 0, 2, 1, 0, 0⟩ rfl,
   (C7_id_never_ff.2.2 ⟨.FF_2ND_RCVD, 0, [], 0, 2, 1, 0, 0⟩ 7 rfl (by decide)).1,
   C7_id_never_ff.1 2 [0, 0] [0xFF, 0xFF, 0xFF, 0xFF, 7]⟩

/-- Claim C8, counterexample: the hooks do not receive the end offset of the
accessed field.  A 2-byte get at offset 0 invokes populateEntry with 0
(the start offset), not 0 + 2, and a 1-byte set at offset 4 invokes
entryModified with 4 (the start offset), not 4 + 1. -/
theorem C8_counterexample :
    (tableGet [10, 20, 30, 40, 50] 2 0).2 = [0]
    ∧ (tableSet [10, 20, 30, 40, 50] 1 4 7).2 = [4]
    ∧ ([0] : List Nat) ≠ [0 + 2]
    ∧ ([4] : List Nat) ≠ [4 + 1] := by
  decide

/-- Claim C8 (amended: populateEntry always receives the field's starting
offset; entryModified receives the starting offset for 1-byte writes and
the end offset, offset + width, for 2- and 4-byte writes): each hook is
invoked exactly once per access, populateEntry before the bytes are read
and entryModified after the bytes are written. -/
theorem C8_hooks (bytes : List Nat) (w offset val : Nat)
    (hw : w = 1 ∨ w = 2 ∨ w = 4) :
    (tableGet bytes w offset).2 = [offset]
    ∧ (tableSet bytes w offset val).2
        = [if w = 1 then offset else offset + w] := by
  rcases hw with h | h | h <;> subst h <;> simp [tableGet, tableSet]

/-- Claim C8, witness for the amended statement. -/
theorem C8_hooks_witness :
    ((2 : Nat) = 1 ∨ (2 : Nat) = 2 ∨ (2 : Nat) = 4)
    ∧ ((tableGet [10, 20, 30] 2 1).2 = [1]
      ∧ (tableSet [10, 20, 30] 2 1 0x1234).2 = [if (2 : Nat) = 1 then 1 else 1 + 2]) :=
  ⟨by decide, C8_hooks [10, 20, 30] 2 1 0x1234 (by decide)⟩

/-- Claim C9: a 1-byte write of value b to the baud-divisor register at
offset 0x04 triggers exactly one setBaudRate notification to the port,
with bit rate 2,000,000 / (b + 1); in particular writing 0x01 notifies
1,000,000. -/
theorem C9_baud_notify (bytes : List Nat) (val : Nat)
    (hlen : 4 < bytes.length) (hval : val < 256) :
    (setWithBaudHook bytes 1 4 val).2 = [some (2000000 / (val + 1))] := by
  simp [setWithBaudHook, tableSet, baseEntryModified, OffsetBAUD]
  rw [Nat.mod_eq_of_lt hval]
  rw [List.getElem?_set_self (by omega)]
  rfl

/-- Claim C9, witness: writing 0x01 to the baud-divisor register notifies
the port with bit rate 1,000,000. -/
theorem C9_baud_notify_witness :
    (4 < ([0, 0, 0, 0, 0, 0] : List Nat).length ∧ (1 : Nat) < 256)
    ∧ (setWithBaudHook [0, 0, 0, 0, 0, 0] 1 4 1).2 = [some 1000000] :=
  ⟨by decide, C9_baud_notify [0, 0, 0, 0, 0, 0] 1 (by decide) (by decide)⟩

/-- Claim C10: load() zeroes the whole backing buffer before delegating to
the storage collaborator, so after a successful load every byte of the
volatile region [persistentSize, totalSize) is zero. -/
theorem C10_load_zeroes_volatile (numCtl numPersistent : Nat) (loaded : List Nat)
    (j : Nat) (hloaded : loaded.length = numPersistent)
    (hle : numPersistent ≤ numCtl) (hj1 : numPersistent ≤ j) (hj2 : j < numCtl) :
    (ctlLoad numCtl numPersistent true loaded).length = numCtl
    ∧ (ctlLoad numCtl numPersistent true loaded)[j]? = some 0 := by
  have htake : loaded.take numPersistent = loaded := List.take_of_length_le (by omega)
  constructor
  · simp [ctlLoad, htake]
    omega
  · simp only [ctlLoad, if_pos, htake, List.drop_replicate]
    rw [List.getElem?_append_right (by omega)]
    rw [List.getElem?_replicate]
    rw [if_pos (by omega)]

/-- Claim C10, witness. -/
theorem C10_load_zeroes_volatile_witness :
    (([9, 9, 9] : List Nat).length = 3 ∧ (3 : Nat) ≤ 6 ∧ (3 : Nat) ≤ 4 ∧ (4 : Nat) < 6)
    ∧ ((ctlLoad 6 3 true [9, 9, 9]).length = 6
      ∧ (ctlLoad 6 3 true [9, 9, 9])[4]? = some 0) :=
  ⟨by decide, C10_load_zeroes_volatile 6 3 [9, 9, 9] 4 (by decide) (by decide)
    (by decide) (by decide)⟩

end bioloid
